import Mathlib

/-!
# Verification of the Auto-dc currency/shop core

Shallow embedding of the currency model, balance ledger, stock ledger and
purchase transaction path of the Auto-dc repository
(`src/ext/constants.py`, `src/ext/balance_manager.py`,
`src/ext/product_manager.py`, `src/ext/trx.py`, `src/database.py`,
`src/ext/live.py`), together with proofs about the embedded operations.

Machine integers are modelled as `Int` (Python integers are unbounded, so no
wrap-around is involved); Python floor division `//` and `%` on a positive
divisor coincide with Lean's `Int./` (Euclidean division) and `Int.%`.
SQLite tables are modelled as association lists / lists of row records, and
each service method becomes a pure function from state to result × state.
-/

namespace AutoDC

/-- Model of Python `str.upper()` (restricted to per-character uppercasing,
which is exact for the ASCII identifiers the bot handles). -/
def pyUpper (s : String) : String := String.mk (s.data.map Char.toUpper)

/-! ## Constants (src/ext/constants.py) -/

/-- `STATUS_AVAILABLE = "AVAILABLE"` (constants.py line 2). -/
def STATUS_AVAILABLE : String := "AVAILABLE"

/-- `STATUS_SOLD = "SOLD"` (constants.py line 3). -/
def STATUS_SOLD : String := "SOLD"

/-- `TRANSACTION_PURCHASE = "PURCHASE"` (constants.py line 7). -/
def TRANSACTION_PURCHASE : String := "PURCHASE"

/-- `TRANSACTION_REFUND` is imported by `src/ext/trx.py` (line 11) but the
constant is absent from `src/ext/constants.py`; modelled from the spec's
refund transaction-type tag.  Only its identity (distinct from the other
type tags) matters to the development. -/
def TRANSACTION_REFUND : String := "REFUND"

/-- `CURRENCY_RATES['DL']` (constants.py line 15). -/
def RATE_DL : Int := 100

/-- `CURRENCY_RATES['BGL']` (constants.py line 16). -/
def RATE_BGL : Int := 10000

/-! ## The Balance value object (src/ext/constants.py lines 46-130)

A Python `Balance` is three integer fields; the constructor immediately
calls `_normalize`.  We model the raw triple as a structure and
normalisation as a function, so that arbitrary (also non-normalised) stored
rows are representable. -/

/-- The three raw integer fields of a `Balance` (constants.py lines 48-51). -/
structure Balance where
  wl : Int
  dl : Int
  bgl : Int
deriving DecidableEq, Repr

/-- `Balance.total_wls` (constants.py lines 70-77):
`wl + dl * CURRENCY_RATES['DL'] + bgl * CURRENCY_RATES['BGL']`. -/
def Balance.total_wls (b : Balance) : Int :=
  b.wl + b.dl * RATE_DL + b.bgl * RATE_BGL

/-- `Balance._normalize` (constants.py lines 54-68): convert everything to
WLs, then greedily back, largest denomination first, using Python floor
division (which equals Euclidean division for the positive divisors
100 and 10000). -/
def Balance.normalize (b : Balance) : Balance :=
  let total_wls := b.total_wls
  { bgl := total_wls / RATE_BGL
    dl := total_wls % RATE_BGL / RATE_DL
    wl := total_wls % RATE_BGL % RATE_DL }

/-- The Python constructor `Balance(wl, dl, bgl)` (constants.py lines 48-52):
stores the fields and immediately normalises. -/
def mkBalance (wl dl bgl : Int) : Balance := Balance.normalize ⟨wl, dl, bgl⟩

/-- The three denominations, as they appear in `Balance.format`. -/
inductive Denom
  | BGL
  | DL
  | WL
deriving DecidableEq, Repr

/-- `Balance.format` (constants.py lines 98-107), modelled as the list of
rendered parts (denomination, value) in emission order; the Python code
renders each part as a string and joins with spaces, which adds nothing to
which parts appear or their order.  A part is appended for BGL when
`bgl > 0`, for DL when `dl > 0`, and for WL when `wl > 0` or no part has
been appended yet. -/
def Balance.formatParts (b : Balance) : List (Denom × Int) :=
  let parts₁ := if 0 < b.bgl then [(Denom.BGL, b.bgl)] else []
  let parts₂ := parts₁ ++ (if 0 < b.dl then [(Denom.DL, b.dl)] else [])
  parts₂ ++ (if 0 < b.wl ∨ parts₂ = [] then [(Denom.WL, b.wl)] else [])

/-- Rendering rule as the spec words it (§4.1 `format`): omit every
zero-valued denomination, largest first, except that an entirely-zero
balance renders as zero of the smallest (primary) unit.  Used only to be
compared against `Balance.formatParts`, which is translated from the code. -/
def formatSpec (b : Balance) : List (Denom × Int) :=
  if b.total_wls = 0 then [(Denom.WL, 0)]
  else
    (if b.bgl ≠ 0 then [(Denom.BGL, b.bgl)] else []) ++
      (if b.dl ≠ 0 then [(Denom.DL, b.dl)] else []) ++
      (if b.wl ≠ 0 then [(Denom.WL, b.wl)] else [])

/-! ### Basic facts about normalisation -/

theorem total_wls_normalize (b : Balance) :
    (Balance.normalize b).total_wls = b.total_wls := by
  simp only [Balance.normalize, Balance.total_wls, RATE_DL, RATE_BGL]
  omega

theorem normalize_idem (b : Balance) :
    Balance.normalize (Balance.normalize b) = Balance.normalize b := by
  simp only [Balance.normalize, Balance.total_wls, RATE_DL, RATE_BGL, Balance.mk.injEq]
  refine ⟨?_, ?_, ?_⟩ <;> omega

theorem total_mkBalance (wl dl bgl : Int) :
    (mkBalance wl dl bgl).total_wls = wl + dl * 100 + bgl * 10000 := by
  rw [mkBalance, total_wls_normalize]; rfl

/-- A normalised balance with non-negative total has all three fields
non-negative, with `wl` and `dl` strictly below the next denomination. -/
theorem normalize_fields (b : Balance) (h : 0 ≤ b.total_wls) :
    0 ≤ (Balance.normalize b).wl ∧ (Balance.normalize b).wl < 100 ∧
      0 ≤ (Balance.normalize b).dl ∧ (Balance.normalize b).dl < 100 ∧
      0 ≤ (Balance.normalize b).bgl := by
  simp only [Balance.normalize, Balance.total_wls, RATE_DL, RATE_BGL] at *
  refine ⟨?_, ?_, ?_, ?_, ?_⟩ <;> omega

/-! ## Store rows and database state (src/database.py lines 38-112)

Each SQLite table becomes a list of row records; the `users` and
`user_growid` tables, which are only ever accessed through their primary
key, become association lists. -/

/-- A row of the `stock` table (database.py lines 72-85).  `created_at` is
an abstract creation stamp (larger = later). -/
structure StockRow where
  id : Nat
  product_code : String
  content : String
  status : String
  added_by : String
  buyer_id : Option String
  seller_id : Option String
  created_at : Nat
deriving DecidableEq, Repr

/-- A row of the `products` table (database.py lines 60-69). -/
structure ProductRow where
  code : String
  name : String
  price : Int
  description : Option String
deriving DecidableEq, Repr

/-- The `old_balance` / `new_balance` text columns of a transaction row:
`update_balance` writes `Balance.format()` output, while the step-8 insert
of `process_purchase` writes `str(balance.total_wls - total_price)` – a bare
integer rendering.  Both shapes are kept. -/
inductive BalSnapshot
  | formatted (parts : List (Denom × Int))
  | rawTotal (n : Int)
deriving DecidableEq, Repr

/-- A row of the `transactions` table (database.py lines 88-101);
`items_count` and `total_price` default to 0 when an INSERT omits them. -/
structure TransRow where
  growid : String
  ttype : String
  details : String
  old_balance : BalSnapshot
  new_balance : BalSnapshot
  items_count : Int
  total_price : Int
deriving DecidableEq, Repr

/-- The durable store: `users` maps a (stored, upper-cased) GrowID to its
three raw balance fields; `user_growid` maps a Discord id to a GrowID. -/
structure DB where
  users : List (String × Balance)
  user_growid : List (String × String)
  products : List ProductRow
  stock : List StockRow
  transactions : List TransRow
deriving DecidableEq, Repr

/-- The balance manager's state: the store plus the in-memory balance cache
`self._cache`, a Python dict keyed by the caller-provided GrowID string
verbatim (src/ext/balance_manager.py line 22). -/
structure BMState where
  db : DB
  cache : List (String × Balance)
deriving DecidableEq, Repr

/-- Python dict assignment `d[k] = v`: replace in place if the key exists,
otherwise append. -/
def dictInsert (m : List (String × Balance)) (k : String) (v : Balance) :
    List (String × Balance) :=
  if (m.lookup k).isSome then m.map (fun p => if p.1 = k then (k, v) else p)
  else m ++ [(k, v)]

/-- SQL `UPDATE t SET value WHERE key = k` on an association list. -/
def assocUpdate (m : List (String × Balance)) (k : String) (v : Balance) :
    List (String × Balance) :=
  m.map (fun p => if p.1 = k then (p.1, v) else p)

/-! ## Balance manager service (src/ext/balance_manager.py) -/

/-- `register_user` (balance_manager.py lines 35-70): in one store
transaction, `INSERT OR IGNORE` the upper-cased GrowID into `users` (a fresh
row has the default zero balance) and `INSERT OR REPLACE` the Discord-id →
GrowID mapping; then pop the upper-cased key from the cache
(`clear_cache(growid.upper())`).  Always returns `True`. -/
def register_user (st : BMState) (discord_id : String) (growid : String) :
    Bool × BMState :=
  let g := pyUpper growid
  let users' :=
    if (st.db.users.lookup g).isSome then st.db.users
    else st.db.users ++ [(g, ⟨0, 0, 0⟩)]
  let map' :=
    st.db.user_growid.filter (fun p => p.1 ≠ discord_id) ++ [(discord_id, g)]
  (true,
    { db := { st.db with users := users', user_growid := map' }
      cache := st.cache.filter (fun p => p.1 ≠ g) })

/-- `get_growid` (balance_manager.py lines 72-97): plain lookup of the
Discord id in `user_growid`. -/
def get_growid (db : DB) (discord_id : String) : Option String :=
  db.user_growid.lookup discord_id

/-- `get_balance` (balance_manager.py lines 104-139): consult the cache at
the verbatim key; on a miss, select from `users` at the upper-cased key,
rebuild a `Balance` (the constructor normalises) and cache it at the
verbatim key. -/
def get_balance (st : BMState) (growid : String) : Option Balance × BMState :=
  match st.cache.lookup growid with
  | some b => (some b, st)
  | none =>
    match st.db.users.lookup (pyUpper growid) with
    | some row =>
      let balance := mkBalance row.wl row.dl row.bgl
      (some balance, { st with cache := dictInsert st.cache growid balance })
    | none => (none, st)

/-- The two `ValueError`s `update_balance` can raise. -/
inductive UpdErr
  | userNotFound
  | insufficientBalance
deriving DecidableEq, Repr

/-- `update_balance` (balance_manager.py lines 141-220): inside one store
transaction, read the current row at the upper-cased key (raising
`User not found` if absent), build old and new `Balance` objects (each
constructor normalises), raise `Insufficient balance` if the new total is
negative, otherwise write the new normalised fields, insert one transaction
row, commit, and only then write the new balance into the cache at the
caller's verbatim key.  Any raise rolls the transaction back, so the whole
state is returned unchanged. -/
def update_balance (st : BMState) (growid : String) (wl dl bgl : Int)
    (details ttype : String) : Except UpdErr Balance × BMState :=
  let g := pyUpper growid
  match st.db.users.lookup g with
  | none => (.error .userNotFound, st)
  | some row =>
    let old_balance := mkBalance row.wl row.dl row.bgl
    let new_balance :=
      mkBalance (old_balance.wl + wl) (old_balance.dl + dl) (old_balance.bgl + bgl)
    if new_balance.total_wls < 0 then (.error .insufficientBalance, st)
    else
      let tx : TransRow :=
        { growid := g, ttype := ttype, details := details
          old_balance := .formatted old_balance.formatParts
          new_balance := .formatted new_balance.formatParts
          items_count := 0, total_price := 0 }
      (.ok new_balance,
        { db := { st.db with
                    users := assocUpdate st.db.users g new_balance
                    transactions := st.db.transactions ++ [tx] }
          cache := dictInsert st.cache growid new_balance })

instance : DecidableEq (Except UpdErr Balance) := fun x y =>
  match x, y with
  | .error a, .error b =>
    if h : a = b then isTrue (by rw [h]) else isFalse (by simp [h])
  | .ok a, .ok b =>
    if h : a = b then isTrue (by rw [h]) else isFalse (by simp [h])
  | .error _, .ok _ => isFalse (by simp)
  | .ok _, .error _ => isFalse (by simp)

/-- One `update_balance` call's arguments, for reasoning about call
sequences. -/
structure UpdCall where
  growid : String
  wl : Int
  dl : Int
  bgl : Int
  details : String
  ttype : String
deriving DecidableEq, Repr

/-- Run a sequence of `update_balance` calls, keeping only the state. -/
def applyUpdates (st : BMState) (calls : List UpdCall) : BMState :=
  calls.foldl
    (fun s c => (update_balance s c.growid c.wl c.dl c.bgl c.details c.ttype).2) st

/-! ## Stock operations (src/ext/product_manager.py) -/

/-- The `WHERE id = ? AND status = STATUS_AVAILABLE` clause of
`mark_stock_used`'s UPDATE. -/
def markHit (stock_id : Nat) (r : StockRow) : Bool :=
  r.id == stock_id && r.status == STATUS_AVAILABLE

/-- The `SET status = STATUS_SOLD, buyer_id = ?, seller_id = ?` part of
`mark_stock_used`'s UPDATE. -/
def markSold (buyer_id : String) (seller_id : Option String) (r : StockRow) :
    StockRow :=
  { r with status := STATUS_SOLD, buyer_id := some buyer_id,
           seller_id := seller_id }

/-- `mark_stock_used` (product_manager.py lines 233-258): one auto-committed
`UPDATE stock SET status = STATUS_SOLD, buyer_id = ?, seller_id = ? WHERE
id = ? AND status = STATUS_AVAILABLE`; returns `cursor.rowcount > 0`, i.e.
whether some row matched the conditional WHERE clause.

This definition gives the UPDATE's row-level conditional semantics in terms
of the status constants that the `ext/` operations use uniformly
(`"AVAILABLE"`/`"SOLD"`, constants.py lines 2-3), which is the status model
the whole purchase path (`process_purchase`, `get_available_stock`) runs
on.  It deliberately does not enforce the status CHECK constraint that
`database.py` line 77 puts on the stock table — that constraint only admits
the lower-case values `'available'/'sold'/'deleted'`, is never satisfiable
by these constants, and is modelled separately in
`mark_stock_used_schema` below. -/
def mark_stock_used (db : DB) (stock_id : Nat) (buyer_id : String)
    (seller_id : Option String) : Bool × DB :=
  let stock' := db.stock.map (fun r =>
    if markHit stock_id r then markSold buyer_id seller_id r else r)
  ((db.stock.filter (markHit stock_id)).length != 0, { db with stock := stock' })

/-- database.py line 77: `CHECK (status IN ('available', 'sold', 'deleted'))`
— the stock table's legal status values, lower-case (its DEFAULT is
`'available'`). -/
def statusAllowed (s : String) : Bool :=
  s == "available" || s == "sold" || s == "deleted"

/-- `mark_stock_used` (product_manager.py lines 233-258) executed against
the stock table exactly as `database.py` lines 72-85 create it: the
UPDATE's SET clause is applied to every row matched by the WHERE clause,
and if any updated row would violate the status CHECK constraint, SQLite
raises `IntegrityError`, which the except branch (product_manager.py lines
251-255) answers by logging, rolling back and returning `False`; otherwise
the UPDATE commits and `rowcount > 0` is returned.  Since
`STATUS_SOLD = "SOLD"` is not among the CHECK's lower-case values, every
matched row triggers the except path — and in a store satisfying the CHECK
no row can carry `STATUS_AVAILABLE = "AVAILABLE"` for the WHERE clause to
match in the first place. -/
def mark_stock_used_schema (db : DB) (stock_id : Nat) (buyer_id : String)
    (seller_id : Option String) : Bool × DB :=
  let hits := db.stock.filter (markHit stock_id)
  if hits.all (fun r => statusAllowed (markSold buyer_id seller_id r).status) then
    (hits.length != 0,
      { db with stock := db.stock.map (fun r =>
          if markHit stock_id r then markSold buyer_id seller_id r else r) })
  else (false, db)

/-- Creation-time order on stock rows. -/
def createdLE (a b : StockRow) : Prop := a.created_at ≤ b.created_at

instance : DecidableRel createdLE := fun a b => Nat.decLe a.created_at b.created_at

instance : IsTotal StockRow createdLE :=
  ⟨fun a b => Nat.le_total a.created_at b.created_at⟩

instance : IsTrans StockRow createdLE :=
  ⟨fun _ _ _ h h' => Nat.le_trans h h'⟩

/-- Modelled from the spec: `get_available_stock` is called from
`src/ext/trx.py` line 93 but its defining class (`ProductManagerService`) is
not under `src/`; per §4.4 `get_available` it returns up to `quantity` rows
with status available for the product, ordered by creation time ascending
(oldest first). -/
def get_available_stock (db : DB) (code : String) (quantity : Nat) :
    List StockRow :=
  ((db.stock.filter
      (fun r => r.product_code == code && r.status == STATUS_AVAILABLE)).insertionSort
    createdLE).take quantity

/-- Modelled from the spec: `get_product` is called from `src/ext/live.py`
line 83 but its defining class is not under `src/`; per §4.3 `get` it is a
lookup of the product by its (already upper-cased) code. -/
def get_product (db : DB) (code : String) : Option ProductRow :=
  db.products.find? (fun p => p.code == code)

/-! ## Purchase transaction (src/ext/trx.py lines 39-176) -/

/-- Environment faults a single purchase run can encounter, the two
exception points of `process_purchase`'s try block: `markDenied id` models a
racing consumer having taken stock row `id` between the fetch (line 93) and
the mark (line 116), so that `mark_stock_used` reports no row updated and
line 122 raises; `insertRaises` models the step-8 transaction-record
`INSERT` (lines 126-140) failing with a store-level error.  The all-`false`
fault is an undisturbed run. -/
structure Fault where
  markDenied : Nat → Bool
  insertRaises : Bool

/-- A fault-free environment. -/
def noFault : Fault := ⟨fun _ => false, false⟩

/-- The typed failures `process_purchase` returns as `(False, msg, [])`. -/
inductive PurchaseFail
  | productNotFound
  | insufficientStockCount
  | noBalance
  | insufficientBalancePre
  | stockNotAvailable
  | balanceUpdateErr (e : UpdErr)
deriving DecidableEq, Repr

/-- Terminal outcomes of one `process_purchase` call: success with the item
contents, a typed failure return, or an exception propagated to the caller
(after the handler's rollback and refund attempt). -/
inductive PurchaseOutcome
  | ok (items : List String)
  | fail (f : PurchaseFail)
  | raised
deriving DecidableEq, Repr

/-- The marking loop (trx.py lines 115-123): mark each fetched row in order;
a denied row or a mark reporting no update raises out of the loop.  Returns
whether the loop completed, with the store as left by the committed marks. -/
def markAll (db : DB) (fault : Fault) (growid user_id : String)
    (rows : List StockRow) : Bool × DB :=
  match rows with
  | [] => (true, db)
  | r :: rest =>
    if fault.markDenied r.id then (false, db)
    else
      let res := mark_stock_used db r.id growid (some user_id)
      if res.1 then markAll res.2 fault growid user_id rest else (false, res.2)

/-- The except handler of `process_purchase` (trx.py lines 156-172): the
pending transaction on the orchestrator's own connection is rolled back
(discarding a pending step-8 insert), then, when `total_price > 0`, a
compensating refund of the full `total_price` is issued through
`update_balance` (its own committed transaction; its errors are swallowed),
and the exception is re-raised. -/
def purchaseExcept (st : BMState) (growid name : String)
    (total_price quantity : Int) : PurchaseOutcome × BMState :=
  if 0 < total_price then
    (.raised,
      (update_balance st growid total_price 0 0
        ("Refund: Failed purchase of " ++ name ++ " x" ++ toString quantity)
        TRANSACTION_REFUND).2)
  else (.raised, st)

/-- `process_purchase` (trx.py lines 39-176).  Steps, as in the source:
product lookup with an available-stock count subquery; count pre-check;
`total_price = price * quantity`; balance fetch (read-through cache);
balance pre-check; stock fetch; atomic debit via `update_balance` (its
`ValueError`s are returned as typed failures); the marking loop; and the
step-8 transaction-record insert, committed last.  Exceptions from the
marking loop or the insert go through `purchaseExcept`.  Note that the
debit, each mark, and the refund commit on their own connections, so they
persist regardless of the orchestrator's rollback. -/
def process_purchase (st : BMState) (fault : Fault) (user_id : String)
    (product_code : String) (quantity : Int) (growid : String) :
    PurchaseOutcome × BMState :=
  match get_product st.db product_code with
  | none => (.fail .productNotFound, st)
  | some p =>
    let stockCount := (st.db.stock.filter
      (fun r => r.product_code == p.code && r.status == STATUS_AVAILABLE)).length
    if (stockCount : Int) < quantity then (.fail .insufficientStockCount, st)
    else
      let total_price := p.price * quantity
      match get_balance st growid with
      | (none, st₁) => (.fail .noBalance, st₁)
      | (some balance, st₁) =>
        if balance.total_wls < total_price then
          (.fail .insufficientBalancePre, st₁)
        else
          let available_stock := get_available_stock st₁.db p.code quantity.toNat
          if (available_stock.length : Int) < quantity then
            (.fail .stockNotAvailable, st₁)
          else
            let details := "Purchase: " ++ p.name ++ " x" ++ toString quantity
            match update_balance st₁ growid (-total_price) 0 0 details
                TRANSACTION_PURCHASE with
            | (.error e, st₂) => (.fail (.balanceUpdateErr e), st₂)
            | (.ok _, st₂) =>
              match markAll st₂.db fault growid user_id available_stock with
              | (false, db₃) =>
                purchaseExcept { st₂ with db := db₃ } growid p.name total_price
                  quantity
              | (true, db₃) =>
                if fault.insertRaises then
                  purchaseExcept { st₂ with db := db₃ } growid p.name total_price
                    quantity
                else
                  let tx : TransRow :=
                    { growid := growid, ttype := TRANSACTION_PURCHASE
                      details := details
                      old_balance := .formatted balance.formatParts
                      new_balance := .rawTotal (balance.total_wls - total_price)
                      items_count := quantity, total_price := total_price }
                  (.ok (available_stock.map (·.content)),
                    { st₂ with
                        db := { db₃ with
                                  transactions := db₃.transactions ++ [tx] } })

/-- The validation failures of the buy command (live.py lines 61-97)
followed by `process_purchase`'s failures. -/
inductive BuyFail
  | noGrowID
  | invalidQuantity
  | productNotFoundPre
  | purchase (f : PurchaseFail)
deriving DecidableEq, Repr

/-- Outcome of one buy-command submission. -/
inductive BuyOutcome
  | ok (items : List String)
  | fail (f : BuyFail)
  | raised
deriving DecidableEq, Repr

/-- The buy command `BuyModal.on_submit` (src/ext/live.py lines 61-97):
resolve the caller's GrowID (failing if unregistered), validate the
quantity range 1..100, upper-case the product code and check it exists
(`get_product`, spec-modelled), then run the purchase with the resolved
GrowID. -/
def buy_on_submit (st : BMState) (fault : Fault) (user_id : String)
    (product_code_input : String) (quantity : Int) : BuyOutcome × BMState :=
  match get_growid st.db user_id with
  | none => (.fail .noGrowID, st)
  | some growid =>
    if quantity ≤ 0 ∨ 100 < quantity then (.fail .invalidQuantity, st)
    else
      let product_code := pyUpper product_code_input
      match get_product st.db product_code with
      | none => (.fail .productNotFoundPre, st)
      | some _ =>
        match process_purchase st fault user_id product_code quantity growid with
        | (.ok items, st') => (.ok items, st')
        | (.fail f, st') => (.fail (.purchase f), st')
        | (.raised, st') => (.raised, st')

/-! ## Concrete states used by witnesses and counterexamples -/

/-- A small shop: one registered user `A` (Discord id "1") holding 300 WL,
one product `SWORD` priced 100, three available stock rows. -/
def shopDB : DB :=
  { users := [("A", ⟨300, 0, 0⟩)]
    user_growid := [("1", "A")]
    products := [⟨"SWORD", "Sword", 100, none⟩]
    stock := [⟨1, "SWORD", "c1", STATUS_AVAILABLE, "adm", none, none, 1⟩,
              ⟨2, "SWORD", "c2", STATUS_AVAILABLE, "adm", none, none, 2⟩,
              ⟨3, "SWORD", "c3", STATUS_AVAILABLE, "adm", none, none, 3⟩]
    transactions := [] }

/-- The shop with an empty cache. -/
def shopState : BMState := ⟨shopDB, []⟩

/-- A fault environment in which the step-8 transaction-record insert
raises. -/
def faultInsert : Fault := ⟨fun _ => false, true⟩

/-- An entirely empty state. -/
def emptyState : BMState := ⟨⟨[], [], [], [], []⟩, []⟩

/-- A store holding one stock row exactly as `database.py`'s schema stores
it: the status is the DEFAULT lower-case `'available'` admitted by the
CHECK constraint of database.py line 77. -/
def schemaDB : DB :=
  { users := []
    user_growid := []
    products := [⟨"SWORD", "Sword", 100, none⟩]
    stock := [⟨1, "SWORD", "c1", "available", "adm", none, none, 1⟩]
    transactions := [] }

/-- The state after the C10 scenario prefix: the user `A` holds 100 WL; a
`get_balance "A"` call has populated the cache at key `"A"`; then
`update_balance "a" +50` has updated the store (to 150 WL total) and the
cache at key `"a"` only. -/
def c10State : BMState :=
  (update_balance (get_balance ⟨⟨[("A", ⟨100, 0, 0⟩)], [], [], [], []⟩, []⟩ "A").2
    "a" 50 0 0 "admin add" "ADMIN_ADD").2

/-! ## Claim C7: normalisation is idempotent and total-preserving -/

/-- C7: for every balance (any integer field values), normalising twice
equals normalising once, the total in primary units (at the fixed rates
1/100/10000) is invariant under normalisation, and in particular
`Balance(wl=150, dl=0, bgl=0)` normalises to `wl=50, dl=1, bgl=0`. -/
theorem c7_normalize_idem_total_invariant :
    (∀ b : Balance, Balance.normalize (Balance.normalize b) = Balance.normalize b) ∧
    (∀ b : Balance, (Balance.normalize b).total_wls = b.total_wls) ∧
    mkBalance 150 0 0 = ⟨50, 1, 0⟩ :=
  ⟨normalize_idem, total_wls_normalize, by decide⟩

/-! ## Claim C9: the rendering rule of `Balance.format` -/

/-- Every Python `Balance` object is normalised (the constructor calls
`_normalize`), and stored balances have non-negative totals; under these
two conditions the code's rendering agrees with the spec's rule. -/
theorem formatParts_eq_formatSpec (b : Balance) (hb : b = Balance.normalize b)
    (h : 0 ≤ b.total_wls) : b.formatParts = formatSpec b := by
  have hf := normalize_fields b (by rwa [← total_wls_normalize, ← hb])
  rw [← hb] at hf
  obtain ⟨hw0, hw1, hd0, hd1, hg0⟩ := hf
  have hts : b.total_wls = b.wl + b.dl * 100 + b.bgl * 10000 := rfl
  clear hb h
  simp only [Balance.formatParts, formatSpec]
  split_ifs <;>
    (try simp only [List.cons_append, List.nil_append, List.append_nil,
      List.cons_ne_nil, or_false, false_or, or_true, not_true] at *) <;>
    first
      | (exfalso; omega)
      | (simp [List.append_assoc, Prod.ext_iff] <;> omega)

/-- C9: for every balance in the normalised, non-negative-total form in
which every Python `Balance` with the stored invariant lives, the rendered
parts list omits each denomination whose value is zero — except that an
entirely-zero balance renders as zero of the smallest (primary) unit — and
every positive denomination appears, in largest-first order (`formatSpec`
is the spec's rule verbatim). -/
theorem c9_format_omits_zero_largest_first (b : Balance)
    (hb : b = Balance.normalize b) (h : 0 ≤ b.total_wls) :
    b.formatParts = formatSpec b :=
  formatParts_eq_formatSpec b hb h

/-- Witness for C9 at the balance `⟨50, 1, 0⟩` (= 150 primary units):
its rendering is `1 DL 50 WL`. -/
theorem c9_format_omits_zero_largest_first_witness :
    (⟨50, 1, 0⟩ : Balance) = Balance.normalize ⟨50, 1, 0⟩ ∧
      (0 : Int) ≤ (⟨50, 1, 0⟩ : Balance).total_wls ∧
      (⟨50, 1, 0⟩ : Balance).formatParts = formatSpec ⟨50, 1, 0⟩ :=
  ⟨by decide, by decide,
    c9_format_omits_zero_largest_first ⟨50, 1, 0⟩ (by decide) (by decide)⟩


/-! ## Association-list lemmas -/

theorem lookup_cons_pair {β : Type} (d pk : String) (pv : β)
    (m : List (String × β)) :
    ((pk, pv) :: m).lookup d = if d = pk then some pv else m.lookup d := by
  by_cases h : d = pk
  · subst h; simp [List.lookup]
  · rw [List.lookup, if_neg h, beq_eq_false_iff_ne.mpr h]

theorem lookup_append {β : Type} (d : String) (m₁ m₂ : List (String × β)) :
    (m₁ ++ m₂).lookup d =
      match m₁.lookup d with
      | some v => some v
      | none => m₂.lookup d := by
  induction m₁ with
  | nil => simp [List.lookup]
  | cons p m ih =>
    obtain ⟨pk, pv⟩ := p
    by_cases h : d = pk <;>
      simp [List.cons_append, lookup_cons_pair, h, ih]

theorem lookup_assocUpdate_self (m : List (String × Balance)) (k : String)
    (v : Balance) :
    (assocUpdate m k v).lookup k = (m.lookup k).map (fun _ => v) := by
  induction m with
  | nil => rfl
  | cons p m ih =>
    obtain ⟨pk, pv⟩ := p
    simp only [assocUpdate, List.map] at ih ⊢
    by_cases hp : pk = k
    · subst hp
      simp [lookup_cons_pair]
    · have hk : ¬k = pk := fun hh => hp hh.symm
      simp [if_neg hp, lookup_cons_pair, hk, ih]

theorem lookup_assocUpdate_ne (m : List (String × Balance)) (k : String)
    (v : Balance) (d : String) (h : ¬d = k) :
    (assocUpdate m k v).lookup d = m.lookup d := by
  induction m with
  | nil => rfl
  | cons p m ih =>
    obtain ⟨pk, pv⟩ := p
    simp only [assocUpdate, List.map] at ih ⊢
    by_cases hp : pk = k
    · subst hp
      simp [lookup_cons_pair, h, ih]
    · by_cases hd : d = pk <;> simp [if_neg hp, lookup_cons_pair, hd, ih]

theorem mem_assocUpdate (m : List (String × Balance)) (k : String) (v : Balance)
    (p : String × Balance) (hp : p ∈ assocUpdate m k v) : p ∈ m ∨ p.2 = v := by
  rcases List.mem_map.mp hp with ⟨q, hq, rfl⟩
  by_cases hqk : q.1 = k <;> simp [hqk]
  exact Or.inl hq

theorem lookup_map_insert_self (m : List (String × Balance)) (k : String)
    (v : Balance) :
    (m.map (fun p => if p.1 = k then (k, v) else p)).lookup k =
      (m.lookup k).map (fun _ => v) := by
  induction m with
  | nil => rfl
  | cons p m ih =>
    obtain ⟨pk, pv⟩ := p
    by_cases hp : pk = k
    · subst hp; simp [lookup_cons_pair]
    · have hk : ¬k = pk := fun hh => hp hh.symm
      simp [List.map_cons, hp, lookup_cons_pair, hk, ih]

theorem lookup_map_insert_ne (m : List (String × Balance)) (k : String)
    (v : Balance) (d : String) (h : ¬d = k) :
    (m.map (fun p => if p.1 = k then (k, v) else p)).lookup d = m.lookup d := by
  induction m with
  | nil => rfl
  | cons p m ih =>
    obtain ⟨pk, pv⟩ := p
    by_cases hp : pk = k
    · subst hp; simp [lookup_cons_pair, h, ih]
    · by_cases hd : d = pk <;> simp [List.map_cons, hp, lookup_cons_pair, hd, ih]

theorem lookup_dictInsert_self (m : List (String × Balance)) (k : String)
    (v : Balance) : (dictInsert m k v).lookup k = some v := by
  unfold dictInsert
  split
  · rename_i hsome
    rw [lookup_map_insert_self]
    rcases hk : m.lookup k with _ | w
    · rw [hk] at hsome; simp at hsome
    · rfl
  · rw [lookup_append]
    rename_i hnone
    rcases hk : m.lookup k with _ | w
    · simp [lookup_cons_pair]
    · rw [hk] at hnone; simp at hnone

theorem lookup_dictInsert_ne (m : List (String × Balance)) (k : String)
    (v : Balance) (d : String) (h : ¬d = k) :
    (dictInsert m k v).lookup d = m.lookup d := by
  unfold dictInsert
  split
  · exact lookup_map_insert_ne m k v d h
  · rw [lookup_append]
    rcases hk : m.lookup d with _ | w
    · simp [lookup_cons_pair, h]
    · rfl

/-! ## Characterising `update_balance` -/

/-- Every stored balance row has a non-negative total (the C1 invariant). -/
def AllNonneg (db : DB) : Prop := ∀ p ∈ db.users, 0 ≤ (p.2).total_wls

/-- The new balance written by `update_balance` carries the old total plus
the delta, all expressed in primary units. -/
theorem update_total_delta (row : Balance) (wl dl bgl : Int) :
    (mkBalance ((mkBalance row.wl row.dl row.bgl).wl + wl)
        ((mkBalance row.wl row.dl row.bgl).dl + dl)
        ((mkBalance row.wl row.dl row.bgl).bgl + bgl)).total_wls =
      row.total_wls + (wl + dl * 100 + bgl * 10000) := by
  rw [total_mkBalance]
  have h := total_wls_normalize ⟨row.wl, row.dl, row.bgl⟩
  simp only [mkBalance] at *
  simp only [Balance.total_wls, RATE_DL, RATE_BGL] at h ⊢
  omega

/-- An erroring `update_balance` call returns the state untouched (the
store transaction is rolled back and the cache is not written). -/
theorem update_balance_error_frame (st : BMState) (g : String)
    (wl dl bgl : Int) (d t : String) (e : UpdErr) (st' : BMState)
    (h : update_balance st g wl dl bgl d t = (.error e, st')) : st' = st := by
  simp only [update_balance] at h
  split at h
  · exact ((Prod.mk.injEq _ _ _ _).mp h).2.symm
  · split at h
    · exact ((Prod.mk.injEq _ _ _ _).mp h).2.symm
    · exact absurd ((Prod.mk.injEq _ _ _ _).mp h).1 (by simp)

/-- A call whose resulting total would be negative fails with the
`Insufficient balance` `ValueError` and changes nothing. -/
theorem update_balance_insufficient (st : BMState) (g : String)
    (wl dl bgl : Int) (d t : String) (row : Balance)
    (hrow : st.db.users.lookup (pyUpper g) = some row)
    (hneg : row.total_wls + (wl + dl * 100 + bgl * 10000) < 0) :
    update_balance st g wl dl bgl d t = (.error .insufficientBalance, st) := by
  simp only [update_balance, hrow]
  rw [if_pos (show _ from by rw [update_total_delta]; exact hneg)]

/-- Full characterisation of a successful `update_balance` call: the new
balance is the old plus the delta with non-negative total; it is written to
the store row at the upper-cased key; exactly one transaction row is
appended, inside the same store transaction; the other tables are
untouched; and the cache is updated (at the caller's verbatim key). -/
theorem update_balance_ok_spec (st : BMState) (g : String) (wl dl bgl : Int)
    (d t : String) (b : Balance) (st' : BMState)
    (h : update_balance st g wl dl bgl d t = (.ok b, st')) :
    ∃ row, st.db.users.lookup (pyUpper g) = some row ∧
      b.total_wls = row.total_wls + (wl + dl * 100 + bgl * 10000) ∧
      0 ≤ b.total_wls ∧
      st'.db.users = assocUpdate st.db.users (pyUpper g) b ∧
      st'.db.transactions = st.db.transactions ++
        [{ growid := pyUpper g, ttype := t, details := d
           old_balance := .formatted (mkBalance row.wl row.dl row.bgl).formatParts
           new_balance := .formatted b.formatParts
           items_count := 0, total_price := 0 }] ∧
      st'.db.products = st.db.products ∧ st'.db.stock = st.db.stock ∧
      st'.db.user_growid = st.db.user_growid ∧
      st'.cache = dictInsert st.cache g b := by
  simp only [update_balance] at h
  split at h
  · exact absurd ((Prod.mk.injEq _ _ _ _).mp h).1 (by simp)
  · rename_i row hrow
    split at h
    · exact absurd ((Prod.mk.injEq _ _ _ _).mp h).1 (by simp)
    · rename_i hpos
      rw [Prod.mk.injEq] at h
      obtain ⟨hb, hst⟩ := h
      rw [Except.ok.injEq] at hb
      subst hb
      subst hst
      refine ⟨row, hrow, update_total_delta row wl dl bgl, ?_, rfl, rfl, rfl,
        rfl, rfl, rfl⟩
      rw [update_total_delta]
      rw [update_total_delta] at hpos
      omega

/-- One `update_balance` call preserves the non-negativity of every stored
balance row. -/
theorem update_balance_preserves_nonneg (st : BMState) (g : String)
    (wl dl bgl : Int) (d t : String) (h : AllNonneg st.db) :
    AllNonneg (update_balance st g wl dl bgl d t).2.db := by
  rcases hrun : update_balance st g wl dl bgl d t with ⟨res, st'⟩
  rcases res with e | b
  · rw [update_balance_error_frame st g wl dl bgl d t e st' hrun]; exact h
  · obtain ⟨row, -, -, hnn, husers, -⟩ :=
      update_balance_ok_spec st g wl dl bgl d t b st' hrun
    intro p hp
    rw [husers] at hp
    rcases mem_assocUpdate _ _ _ p hp with hm | hv
    · exact h p hm
    · rw [hv]; exact hnn

/-- Any sequence of `update_balance` calls preserves the invariant. -/
theorem applyUpdates_preserves_nonneg (st : BMState) (calls : List UpdCall)
    (h : AllNonneg st.db) : AllNonneg (applyUpdates st calls).db := by
  induction calls generalizing st with
  | nil => exact h
  | cons c calls ih =>
    exact ih _ (update_balance_preserves_nonneg st c.growid c.wl c.dl c.bgl
      c.details c.ttype h)

/-! ## Claim C1: the balance ledger invariant -/

/-- C1: (i) any sequence of `update_balance` calls keeps every stored
balance total ≥ 0; (ii) a call whose resulting total would be negative
fails with the `Insufficient balance` error and returns the state — store
rows, transaction log and cache — exactly as it was; (iii) a successful
call writes the new balance (leaving all other rows alone), appends exactly
one transaction row in the same store transaction, and only then updates
the cache. -/
theorem c1_update_balance_nonneg_atomic :
    (∀ st calls, AllNonneg st.db → AllNonneg (applyUpdates st calls).db) ∧
    (∀ st g wl dl bgl d t row,
        st.db.users.lookup (pyUpper g) = some row →
        row.total_wls + (wl + dl * 100 + bgl * 10000) < 0 →
        update_balance st g wl dl bgl d t = (.error .insufficientBalance, st)) ∧
    (∀ st g wl dl bgl d t b st',
        update_balance st g wl dl bgl d t = (.ok b, st') →
        0 ≤ b.total_wls ∧
        st'.db.users.lookup (pyUpper g) = some b ∧
        (∀ k, ¬k = pyUpper g → st'.db.users.lookup k = st.db.users.lookup k) ∧
        (∃ tx, st'.db.transactions = st.db.transactions ++ [tx] ∧
            tx.growid = pyUpper g ∧ tx.ttype = t) ∧
        st'.cache = dictInsert st.cache g b) := by
  refine ⟨applyUpdates_preserves_nonneg, update_balance_insufficient, ?_⟩
  intro st g wl dl bgl d t b st' h
  obtain ⟨row, hrow, -, hnn, husers, htrans, -, -, -, hcache⟩ :=
    update_balance_ok_spec st g wl dl bgl d t b st' h
  refine ⟨hnn, ?_, ?_, ⟨_, htrans, rfl, rfl⟩, hcache⟩
  · rw [husers, lookup_assocUpdate_self, hrow]; rfl
  · intro k hk
    rw [husers, lookup_assocUpdate_ne _ _ _ _ hk]

/-- Witness for C1: from the shop state (user `A` holding 300 WL, total
non-negative), the sequence debit 200 / debit 200 keeps all stored totals
non-negative; a debit of 400 fails with `Insufficient balance` leaving the
state untouched; and the successful debit of 200 yields the balance
`⟨0, 1, 0⟩` (100 WL). -/
theorem c1_update_balance_nonneg_atomic_witness :
    AllNonneg shopState.db ∧
    AllNonneg (applyUpdates shopState
      [⟨"A", -200, 0, 0, "d", "PURCHASE"⟩, ⟨"A", -200, 0, 0, "d", "PURCHASE"⟩]).db ∧
    shopState.db.users.lookup (pyUpper "A") = some ⟨300, 0, 0⟩ ∧
    update_balance shopState "A" (-400) 0 0 "d" "PURCHASE" =
      (.error .insufficientBalance, shopState) ∧
    (update_balance shopState "A" (-200) 0 0 "d" "PURCHASE").2.db.users.lookup
      (pyUpper "A") = some ⟨0, 1, 0⟩ := by
  refine ⟨by unfold AllNonneg; decide,
    c1_update_balance_nonneg_atomic.1 shopState _ (by unfold AllNonneg; decide),
    by decide,
    c1_update_balance_nonneg_atomic.2.1 shopState "A" (-400) 0 0 "d" "PURCHASE"
      ⟨300, 0, 0⟩ (by decide) (by decide), ?_⟩
  exact (c1_update_balance_nonneg_atomic.2.2 shopState "A" (-200) 0 0 "d"
    "PURCHASE" ⟨0, 1, 0⟩ (update_balance shopState "A" (-200) 0 0 "d" "PURCHASE").2
    (by decide)).2.1

/-! ## Lemmas on `mark_stock_used` -/

theorem mark_stock_used_true_iff (db : DB) (sid : Nat) (b : String)
    (s : Option String) :
    (mark_stock_used db sid b s).1 = true ↔
      ∃ r ∈ db.stock, r.id = sid ∧ r.status = STATUS_AVAILABLE := by
  simp only [mark_stock_used, bne_iff_ne, ne_eq, List.length_eq_zero]
  constructor
  · intro h
    rcases List.exists_mem_of_ne_nil _ h with ⟨r, hr⟩
    have := List.mem_filter.mp hr
    exact ⟨r, this.1, by simpa [markHit] using this.2⟩
  · intro ⟨r, hr, h1, h2⟩ hnil
    have := List.filter_eq_nil_iff.mp hnil r hr
    simp [markHit, h1, h2] at this

theorem markHit_iff (sid : Nat) (r : StockRow) :
    markHit sid r = true ↔ r.id = sid ∧ r.status = STATUS_AVAILABLE := by
  simp [markHit]

/-- Against the real schema, `mark_stock_used` is a no-op: in every store
satisfying the status CHECK constraint of database.py line 77 (lower-case
`'available'/'sold'/'deleted'`), the UPDATE's WHERE clause — which compares
the status to the upper-case `STATUS_AVAILABLE` — matches no row, so the
call returns false and leaves the store exactly as it was. -/
theorem mark_stock_used_schema_noop (db : DB)
    (h : ∀ r ∈ db.stock, statusAllowed r.status = true) (sid : Nat)
    (b : String) (s : Option String) :
    mark_stock_used_schema db sid b s = (false, db) := by
  have hnomatch : ∀ r ∈ db.stock, ¬markHit sid r = true := by
    intro r hr hm
    have hs := h r hr
    rw [((markHit_iff sid r).mp hm).2] at hs
    simp [statusAllowed, STATUS_AVAILABLE] at hs
  have hfil : db.stock.filter (markHit sid) = [] :=
    List.filter_eq_nil_iff.mpr hnomatch
  have hmap : db.stock.map
      (fun r => if markHit sid r then markSold b s r else r) = db.stock := by
    calc db.stock.map (fun r => if markHit sid r then markSold b s r else r)
        = db.stock.map id :=
          List.map_congr_left (fun r hr => by rw [if_neg (hnomatch r hr)]; rfl)
      _ = db.stock := List.map_id db.stock
  simp only [mark_stock_used_schema, hfil, hmap]
  simp

/-! ## Claim C3: the conditional available→sold transition -/

/-- C3 (code/schema mismatch): run against the stock table that
`database.py` actually creates, `mark_stock_used` can never transition any
row.  (i) In every store whose rows satisfy the status CHECK constraint
(lower-case `'available'/'sold'/'deleted'`, line 77), the call returns
false and leaves the store untouched — the WHERE clause compares against
`STATUS_AVAILABLE = "AVAILABLE"` (constants.py line 2), which the CHECK
never admits, and a matching row would only drive the SET of
`STATUS_SOLD = "SOLD"` into the CHECK-violation except path, again
returning false.  (ii) In particular, in `schemaDB`, whose single stock row
holds the schema's genuine available status, the call returns false and the
row stays `'available'`: the claimed returns-true-and-transitions behaviour
never occurs. -/
theorem c3_mark_stock_used_never_transitions :
    (∀ db : DB, (∀ r ∈ db.stock, statusAllowed r.status = true) →
        ∀ sid b s, mark_stock_used_schema db sid b s = (false, db)) ∧
    mark_stock_used_schema schemaDB 1 "A" (some "1") = (false, schemaDB) ∧
    schemaDB.stock.all (fun r => r.status == "available") = true :=
  ⟨fun db h sid b s => mark_stock_used_schema_noop db h sid b s,
    by decide, by decide⟩

/-- Witness for C3's theorem: `schemaDB` satisfies the CHECK constraint,
and marking its (genuinely available) row 1 returns false and changes
nothing. -/
theorem c3_mark_stock_used_never_transitions_witness :
    (∀ r ∈ schemaDB.stock, statusAllowed r.status = true) ∧
    mark_stock_used_schema schemaDB 1 "B" none = (false, schemaDB) :=
  ⟨by decide,
    c3_mark_stock_used_never_transitions.1 schemaDB (by decide) 1 "B" none⟩

/-! ## Claim C8: the stock-fetch operation -/

/-- C8: `get_available_stock` returns at most `quantity` rows, each with the
requested product code and status available, ordered by creation time
ascending (oldest first). -/
theorem c8_get_available_stock_fifo (db : DB) (code : String) (q : Nat) :
    (get_available_stock db code q).length ≤ q ∧
    (∀ r ∈ get_available_stock db code q,
        r.product_code = code ∧ r.status = STATUS_AVAILABLE) ∧
    List.Sorted createdLE (get_available_stock db code q) := by
  refine ⟨?_, ?_, ?_⟩
  · simp [get_available_stock, List.length_take]
  · intro r hr
    have h1 := List.take_subset q _ hr
    have h2 := (List.perm_insertionSort createdLE _).subset h1
    have h3 := List.mem_filter.mp h2
    simpa using h3.2
  · exact List.Pairwise.sublist (List.take_sublist q _)
      (List.sorted_insertionSort createdLE _)

/-- Witness for C8: fetching two `SWORD` rows from the shop yields at most
two rows, the first fetched row `c1` is available stock of `SWORD`, and the
result is sorted by creation time. -/
theorem c8_get_available_stock_fifo_witness :
    (get_available_stock shopDB "SWORD" 2).length ≤ 2 ∧
    (⟨1, "SWORD", "c1", STATUS_AVAILABLE, "adm", none, none, 1⟩ : StockRow) ∈
      get_available_stock shopDB "SWORD" 2 ∧
    ((⟨1, "SWORD", "c1", STATUS_AVAILABLE, "adm", none, none, 1⟩ : StockRow).product_code
        = "SWORD" ∧
      (⟨1, "SWORD", "c1", STATUS_AVAILABLE, "adm", none, none, 1⟩ : StockRow).status
        = STATUS_AVAILABLE) ∧
    List.Sorted createdLE (get_available_stock shopDB "SWORD" 2) :=
  ⟨(c8_get_available_stock_fifo shopDB "SWORD" 2).1, by decide,
    (c8_get_available_stock_fifo shopDB "SWORD" 2).2.1 _ (by decide),
    (c8_get_available_stock_fifo shopDB "SWORD" 2).2.2⟩

/-! ## Claim C5: registration semantics -/

theorem lookup_filter_ne {β : Type} (m : List (String × β)) (x d : String) :
    (m.filter (fun p => p.1 ≠ x)).lookup d =
      if d = x then none else m.lookup d := by
  induction m with
  | nil => simp [List.lookup]
  | cons p m ih =>
    obtain ⟨pk, pv⟩ := p
    by_cases hp : pk = x
    · subst hp
      simp only [List.filter_cons]
      rw [show (decide ((pk, pv).1 ≠ pk)) = false by simp]
      rw [if_neg (by simp)]
      rw [ih]
      by_cases hd : d = pk <;> simp [hd, lookup_cons_pair]
    · simp only [List.filter_cons]
      rw [show (decide ((pk, pv).1 ≠ x)) = true by simp [hp]]
      rw [if_pos rfl]
      rw [lookup_cons_pair, lookup_cons_pair, ih]
      by_cases hd : d = pk
      · subst hd; simp [hp]
      · simp [hd]

/-- C5 as stated is false on the code: registering the handle `BOB` under
external id "1" and then again under external id "2" has the second call
return `true` (the code has no handle-uniqueness check — `INSERT OR
REPLACE` keyed by the external id), with both external ids now mapped to
`BOB` (the first mapping does survive). -/
theorem c5_counterexample :
    (register_user emptyState "1" "BOB").1 = true ∧
    (register_user (register_user emptyState "1" "BOB").2 "2" "BOB").1 = true ∧
    (register_user (register_user emptyState "1" "BOB").2 "2" "BOB").2.db.user_growid.lookup "1"
      = some "BOB" ∧
    (register_user (register_user emptyState "1" "BOB").2 "2" "BOB").2.db.user_growid.lookup "2"
      = some "BOB" := by decide

/-- C5 amended: `register_user` always returns true — also when the handle
is already registered under a different external identifier, in which case
both mappings coexist and the first one is left intact; a successful
registration ensures the handle's zero balance row exists (creating it only
if new) and writes the external-id mapping, both in one store transaction,
touching no other table. -/
theorem c5_register_user_semantics (st : BMState) (did gid : String) :
    (register_user st did gid).1 = true ∧
    (register_user st did gid).2.db.user_growid.lookup did = some (pyUpper gid) ∧
    (∀ d, ¬d = did →
        (register_user st did gid).2.db.user_growid.lookup d =
          st.db.user_growid.lookup d) ∧
    (register_user st did gid).2.db.users.lookup (pyUpper gid) =
      (match st.db.users.lookup (pyUpper gid) with
        | some b => some b
        | none => some ⟨0, 0, 0⟩) ∧
    (∀ k, ¬k = pyUpper gid →
        (register_user st did gid).2.db.users.lookup k = st.db.users.lookup k) ∧
    (register_user st did gid).2.db.stock = st.db.stock ∧
    (register_user st did gid).2.db.transactions = st.db.transactions := by
  refine ⟨rfl, ?_, ?_, ?_, ?_, rfl, rfl⟩
  · simp only [register_user, lookup_append, lookup_filter_ne, if_pos rfl]
    simp [lookup_cons_pair]
  · intro d hd
    simp only [register_user, lookup_append, lookup_filter_ne, if_neg hd]
    rcases hk : st.db.user_growid.lookup d with _ | w
    · simp [lookup_cons_pair, hd]
    · rfl
  · simp only [register_user]
    split
    · rename_i hsome
      rcases hk : st.db.users.lookup (pyUpper gid) with _ | b
      · rw [hk] at hsome; simp at hsome
      · rfl
    · rename_i hnone
      rcases hk : st.db.users.lookup (pyUpper gid) with _ | b
      · rw [lookup_append, hk]
        simp [lookup_cons_pair]
      · rw [hk] at hnone; simp at hnone
  · intro k hk
    simp only [register_user]
    split
    · rfl
    · rw [lookup_append]
      rcases hd : st.db.users.lookup k with _ | w
      · simp [lookup_cons_pair, hk]
      · rfl

/-- Witness for C5's amended statement: registering `BOB` twice under
external ids "1" and "2" — the second call returns true, maps "2" to `BOB`,
leaves the mapping of "1" unchanged, and keeps the existing zero balance
row for `BOB`. -/
theorem c5_register_user_semantics_witness :
    (register_user (register_user emptyState "1" "BOB").2 "2" "BOB").1 = true ∧
    (register_user (register_user emptyState "1" "BOB").2 "2" "BOB").2.db.user_growid.lookup "2"
      = some (pyUpper "BOB") ∧
    (register_user (register_user emptyState "1" "BOB").2 "2" "BOB").2.db.user_growid.lookup "1"
      = (register_user emptyState "1" "BOB").2.db.user_growid.lookup "1" ∧
    (register_user (register_user emptyState "1" "BOB").2 "2" "BOB").2.db.users.lookup
      (pyUpper "BOB") = some ⟨0, 0, 0⟩ := by
  have h := c5_register_user_semantics (register_user emptyState "1" "BOB").2 "2" "BOB"
  refine ⟨h.1, h.2.1, h.2.2.1 "1" (by decide), ?_⟩
  have h4 := h.2.2.2.1
  rw [show (register_user emptyState "1" "BOB").2.db.users.lookup (pyUpper "BOB")
      = some ⟨0, 0, 0⟩ by decide] at h4
  exact h4

/-! ## Claim C10: the cache is keyed by the verbatim handle string -/

/-- C10: after `get_balance "A"` populates the cache and `update_balance
"a"` (another casing of the same handle) updates the store and writes the
cache only under the verbatim key `"a"`, a `get_balance "A"` call returns
the stale cached balance `⟨0, 1, 0⟩` (100 primary units) while the stored
row at the upper-cased key `"A"` holds `⟨50, 1, 0⟩` (150 primary units):
balance reads are not case-insensitive once the cache is populated, because
the cache is keyed by the caller-provided string verbatim while every store
query upper-cases the handle. -/
theorem c10_cache_stale_across_casings :
    (get_balance c10State "A").1 = some ⟨0, 1, 0⟩ ∧
    c10State.db.users.lookup (pyUpper "A") = some ⟨50, 1, 0⟩ ∧
    (⟨0, 1, 0⟩ : Balance).total_wls = 100 ∧
    (⟨50, 1, 0⟩ : Balance).total_wls = 150 ∧
    c10State.cache.lookup "a" = some ⟨50, 1, 0⟩ ∧
    c10State.cache.lookup "A" = some ⟨0, 1, 0⟩ := by decide

/-! ## Frame lemmas for the purchase path -/

/-- `get_balance` only reads the store; at most the cache changes. -/
theorem get_balance_db_frame (st : BMState) (g : String) :
    (get_balance st g).2.db = st.db := by
  simp only [get_balance]
  split
  · rfl
  · split <;> rfl

/-- `mark_stock_used` touches only the `stock` table. -/
theorem mark_stock_used_tables (db : DB) (sid : Nat) (b : String)
    (s : Option String) :
    (mark_stock_used db sid b s).2.users = db.users ∧
    (mark_stock_used db sid b s).2.transactions = db.transactions ∧
    (mark_stock_used db sid b s).2.products = db.products ∧
    (mark_stock_used db sid b s).2.user_growid = db.user_growid :=
  ⟨rfl, rfl, rfl, rfl⟩

/-- `mark_stock_used` never changes a row's id. -/
theorem mark_stock_used_ids (db : DB) (sid : Nat) (b : String)
    (s : Option String) :
    (mark_stock_used db sid b s).2.stock.map (·.id) = db.stock.map (·.id) := by
  simp only [mark_stock_used, List.map_map]
  refine List.map_congr_left (fun r _ => ?_)
  by_cases hm : markHit sid r = true
  · simp [hm, markSold]
  · simp [hm]

/-- The marking loop touches only the `stock` table. -/
theorem markAll_tables (fault : Fault) (g u : String) (rows : List StockRow) :
    ∀ db : DB,
      (markAll db fault g u rows).2.users = db.users ∧
      (markAll db fault g u rows).2.transactions = db.transactions ∧
      (markAll db fault g u rows).2.products = db.products ∧
      (markAll db fault g u rows).2.user_growid = db.user_growid := by
  induction rows with
  | nil => exact fun db => ⟨rfl, rfl, rfl, rfl⟩
  | cons r rest ih =>
    intro db
    simp only [markAll]
    by_cases hd : fault.markDenied r.id = true
    · rw [if_pos hd]; exact ⟨rfl, rfl, rfl, rfl⟩
    · rw [if_neg hd]
      by_cases hm : (mark_stock_used db r.id g (some u)).1 = true
      · rw [if_pos hm]
        exact ih (mark_stock_used db r.id g (some u)).2
      · rw [if_neg hm]; exact ⟨rfl, rfl, rfl, rfl⟩

/-- The marking loop never changes row ids. -/
theorem markAll_ids (fault : Fault) (g u : String) (rows : List StockRow) :
    ∀ db : DB,
      (markAll db fault g u rows).2.stock.map (·.id) = db.stock.map (·.id) := by
  induction rows with
  | nil => exact fun _ => rfl
  | cons r rest ih =>
    intro db
    simp only [markAll]
    by_cases hd : fault.markDenied r.id = true
    · rw [if_pos hd]
    · rw [if_neg hd]
      by_cases hm : (mark_stock_used db r.id g (some u)).1 = true
      · rw [if_pos hm, ih _, mark_stock_used_ids]
      · rw [if_neg hm, mark_stock_used_ids]

/-- Once every stock row with a given id is sold, further marks keep it
that way. -/
theorem mark_preserves_sold (db : DB) (sid : Nat) (b : String)
    (s : Option String) (i : Nat)
    (h : ∀ r ∈ db.stock, r.id = i → r.status = STATUS_SOLD) :
    ∀ r ∈ (mark_stock_used db sid b s).2.stock, r.id = i →
      r.status = STATUS_SOLD := by
  intro r hr hid
  simp only [mark_stock_used] at hr
  obtain ⟨q, hq, hfq⟩ := List.mem_map.mp hr
  by_cases hm : markHit sid q = true
  · rw [if_pos hm] at hfq
    rw [← hfq]
    rfl
  · rw [if_neg hm] at hfq
    subst hfq
    exact h q hq hid

/-- Same, through the whole marking loop. -/
theorem markAll_preserves_sold (fault : Fault) (g u : String)
    (rows : List StockRow) (i : Nat) :
    ∀ db : DB, (∀ r ∈ db.stock, r.id = i → r.status = STATUS_SOLD) →
      ∀ r ∈ (markAll db fault g u rows).2.stock, r.id = i →
        r.status = STATUS_SOLD := by
  induction rows with
  | nil => exact fun _ h => h
  | cons r rest ih =>
    intro db h
    simp only [markAll]
    by_cases hd : fault.markDenied r.id = true
    · rw [if_pos hd]; exact h
    · rw [if_neg hd]
      by_cases hm : (mark_stock_used db r.id g (some u)).1 = true
      · rw [if_pos hm]
        exact ih _ (mark_preserves_sold db r.id g (some u) i h)
      · rw [if_neg hm]
        exact mark_preserves_sold db r.id g (some u) i h

/-- If the marking loop completes, every row it visited (identified by id,
ids being unique) ends up sold in the resulting store. -/
theorem markAll_sold (fault : Fault) (g u : String) (rows : List StockRow) :
    ∀ db : DB, (db.stock.map (·.id)).Nodup →
      (markAll db fault g u rows).1 = true →
      ∀ r ∈ rows, ∀ r' ∈ (markAll db fault g u rows).2.stock, r'.id = r.id →
        r'.status = STATUS_SOLD := by
  induction rows with
  | nil => intro db _ _ r hr; exact absurd hr (List.not_mem_nil r)
  | cons r0 rest ih =>
    intro db hnd htrue r hr
    simp only [markAll] at htrue ⊢
    by_cases hd : fault.markDenied r0.id = true
    · rw [if_pos hd] at htrue; simp at htrue
    · rw [if_neg hd] at htrue ⊢
      by_cases hm : (mark_stock_used db r0.id g (some u)).1 = true
      · rw [if_pos hm] at htrue ⊢
        have hsold : ∀ r' ∈ (mark_stock_used db r0.id g (some u)).2.stock,
            r'.id = r0.id → r'.status = STATUS_SOLD := by
          intro r' hr' hid
          simp only [mark_stock_used] at hr'
          obtain ⟨q, hq, hfq⟩ := List.mem_map.mp hr'
          by_cases hmq : markHit r0.id q = true
          · rw [if_pos hmq] at hfq; rw [← hfq]; rfl
          · rw [if_neg hmq] at hfq
            subst hfq
            obtain ⟨w, hw, hw1, hw2⟩ :=
              (mark_stock_used_true_iff db r0.id g (some u)).mp hm
            have hqw : q = w :=
              List.inj_on_of_nodup_map hnd hq hw (by rw [hid, hw1])
            rw [hqw] at hmq
            exact absurd ((markHit_iff r0.id w).mpr ⟨hw1, hw2⟩) hmq
        rcases List.mem_cons.mp hr with rfl | htl
        · exact markAll_preserves_sold fault g u rest r.id _ hsold
        · exact ih _ (by rw [mark_stock_used_ids]; exact hnd) htrue r htl
      · rw [if_neg hm] at htrue; simp at htrue

/-- A credit (or any delta keeping the total non-negative) on an existing
row always succeeds, with the expected new total. -/
theorem update_balance_succeeds (st : BMState) (g : String) (wl dl bgl : Int)
    (d t : String) (row : Balance)
    (hrow : st.db.users.lookup (pyUpper g) = some row)
    (hpos : 0 ≤ row.total_wls + (wl + dl * 100 + bgl * 10000)) :
    ∃ b st', update_balance st g wl dl bgl d t = (.ok b, st') ∧
      b.total_wls = row.total_wls + (wl + dl * 100 + bgl * 10000) := by
  refine ⟨_, (update_balance st g wl dl bgl d t).2, ?_,
    update_total_delta row wl dl bgl⟩
  simp only [update_balance, hrow]
  rw [if_neg (show ¬_ < (0 : Int) from by rw [update_total_delta]; omega)]

/-- Behaviour of the exception handler: the outcome is `raised`; when the
purchase had a positive total price, a compensating refund restores the
pre-debit total and a refund transaction row is appended; otherwise the
balance is left at or above the pre-debit total. -/
theorem purchaseExcept_spec (stE : BMState) (g name : String)
    (total_price quantity : Int) (row0 newB : Balance) (o : PurchaseOutcome)
    (st' : BMState)
    (hlk : stE.db.users.lookup (pyUpper g) = some newB)
    (htot : newB.total_wls = row0.total_wls - total_price)
    (hnn : 0 ≤ newB.total_wls)
    (h : purchaseExcept stE g name total_price quantity = (o, st')) :
    o = .raised ∧
      ∃ b', st'.db.users.lookup (pyUpper g) = some b' ∧
        row0.total_wls ≤ b'.total_wls ∧
        (0 < total_price →
          b'.total_wls = row0.total_wls ∧
          ∃ tx ∈ st'.db.transactions, tx.ttype = TRANSACTION_REFUND) := by
  simp only [purchaseExcept] at h
  split at h
  · rename_i hpos
    obtain ⟨b2, st2, hrun, hb2⟩ := update_balance_succeeds stE g total_price 0 0
      ("Refund: Failed purchase of " ++ name ++ " x" ++ toString quantity)
      TRANSACTION_REFUND newB hlk (by omega)
    rw [hrun] at h
    obtain ⟨ho, hst⟩ := (Prod.mk.injEq _ _ _ _).mp h
    subst hst
    obtain ⟨row', hrow', -, -, husers, htrans, -, -, -, -⟩ :=
      update_balance_ok_spec stE g total_price 0 0 _ _ b2 st2 hrun
    refine ⟨ho.symm, b2, ?_, by omega, fun _ => ⟨by omega, ?_⟩⟩
    · rw [husers, lookup_assocUpdate_self, hlk]; rfl
    · rw [htrans]
      exact ⟨_, List.mem_append_right _ (List.mem_singleton_self _), rfl⟩
  · rename_i hpos
    obtain ⟨ho, hst⟩ := (Prod.mk.injEq _ _ _ _).mp h
    subst hst
    exact ⟨ho.symm, newB, hlk, by omega, fun hc => absurd hc hpos⟩

/-- Master case analysis of one `process_purchase` run: every terminal
outcome is (i) a typed failure leaving the store untouched, (ii) a success
with the balance debited by exactly `price * quantity`, the fetched rows
sold, and a purchase record appended, or (iii) a raise whose handler left
the buyer's total at least at its pre-call value — exactly restored, with a
refund record, whenever the total price was positive. -/
theorem process_purchase_spec (st : BMState) (fault : Fault) (uid pc : String)
    (q : Int) (g : String) (o : PurchaseOutcome) (st' : BMState)
    (hids : (st.db.stock.map (·.id)).Nodup)
    (h : process_purchase st fault uid pc q g = (o, st')) :
    (∃ f, o = .fail f ∧ st'.db = st.db) ∨
    (∃ items p row0 newB, o = .ok items ∧
        get_product st.db pc = some p ∧
        st.db.users.lookup (pyUpper g) = some row0 ∧
        st'.db.users.lookup (pyUpper g) = some newB ∧
        newB.total_wls = row0.total_wls - p.price * q ∧
        (get_available_stock st.db p.code q.toNat).length = q.toNat ∧
        (∀ r ∈ get_available_stock st.db p.code q.toNat,
            ∀ r' ∈ st'.db.stock, r'.id = r.id → r'.status = STATUS_SOLD) ∧
        (∃ tx ∈ st'.db.transactions, tx.ttype = TRANSACTION_PURCHASE ∧
            tx.items_count = q ∧ tx.total_price = p.price * q)) ∨
    (∃ p row0 b', o = .raised ∧
        get_product st.db pc = some p ∧
        st.db.users.lookup (pyUpper g) = some row0 ∧
        st'.db.users.lookup (pyUpper g) = some b' ∧
        row0.total_wls ≤ b'.total_wls ∧
        (0 < p.price * q →
            b'.total_wls = row0.total_wls ∧
            ∃ tx ∈ st'.db.transactions, tx.ttype = TRANSACTION_REFUND)) := by
  simp only [process_purchase] at h
  split at h
  · obtain ⟨ho, hst⟩ := (Prod.mk.injEq _ _ _ _).mp h
    exact Or.inl ⟨.productNotFound, ho.symm, by rw [← hst]⟩
  rename_i p hp
  split at h
  · obtain ⟨ho, hst⟩ := (Prod.mk.injEq _ _ _ _).mp h
    exact Or.inl ⟨.insufficientStockCount, ho.symm, by rw [← hst]⟩
  rename_i hcount
  split at h
  · rename_i st₁ hgb
    obtain ⟨ho, hst⟩ := (Prod.mk.injEq _ _ _ _).mp h
    have hdb1 : st₁.db = st.db := by
      rw [show st₁ = (get_balance st g).2 by rw [hgb]]
      exact get_balance_db_frame st g
    exact Or.inl ⟨.noBalance, ho.symm, by rw [← hst]; exact hdb1⟩
  rename_i balance st₁ hgb
  have hdb1 : st₁.db = st.db := by
    rw [show st₁ = (get_balance st g).2 by rw [hgb]]
    exact get_balance_db_frame st g
  split at h
  · obtain ⟨ho, hst⟩ := (Prod.mk.injEq _ _ _ _).mp h
    exact Or.inl ⟨.insufficientBalancePre, ho.symm, by rw [← hst]; exact hdb1⟩
  rename_i hbal
  split at h
  · obtain ⟨ho, hst⟩ := (Prod.mk.injEq _ _ _ _).mp h
    exact Or.inl ⟨.stockNotAvailable, ho.symm, by rw [← hst]; exact hdb1⟩
  rename_i hlen
  split at h
  · rename_i e st₂ hupd
    obtain ⟨ho, hst⟩ := (Prod.mk.injEq _ _ _ _).mp h
    have h2 := update_balance_error_frame st₁ g _ 0 0 _ _ e st₂ hupd
    exact Or.inl ⟨.balanceUpdateErr e, ho.symm, by rw [← hst, h2]; exact hdb1⟩
  rename_i newB st₂ hupd
  obtain ⟨row0, hrow0, htotB, hnnB, husers2, htrans2, hprod2, hstock2, hug2,
    hcache2⟩ := update_balance_ok_spec st₁ g _ 0 0 _ _ newB st₂ hupd
  have hrow0' : st.db.users.lookup (pyUpper g) = some row0 := hdb1 ▸ hrow0
  have hnewBtot : newB.total_wls = row0.total_wls - p.price * q := by
    rw [htotB]; ring
  have hstock2' : st₂.db.stock = st.db.stock := by rw [hstock2, hdb1]
  have hids2 : (st₂.db.stock.map (·.id)).Nodup := by rw [hstock2']; exact hids
  have hlk2 : st₂.db.users.lookup (pyUpper g) = some newB := by
    rw [husers2, lookup_assocUpdate_self, hrow0]; rfl
  split at h
  · rename_i db₃ hmark
    have hu3 : db₃.users = st₂.db.users := by
      rw [show db₃ = (markAll st₂.db fault g uid _).2 by rw [hmark]]
      exact (markAll_tables fault g uid _ st₂.db).1
    have hlkE : ({ st₂ with db := db₃ } : BMState).db.users.lookup (pyUpper g) =
        some newB := by
      show db₃.users.lookup _ = _
      rw [hu3]; exact hlk2
    obtain ⟨ho, b', hlk', hge, himp⟩ :=
      purchaseExcept_spec _ g p.name (p.price * q) q row0 newB o st' hlkE
        hnewBtot hnnB h
    exact Or.inr (Or.inr ⟨p, row0, b', ho, hp, hrow0', hlk', hge, himp⟩)
  rename_i db₃ hmark
  have hmark1 : (markAll st₂.db fault g uid
      (get_available_stock st₁.db p.code q.toNat)).1 = true := by rw [hmark]
  have hmark2 : (markAll st₂.db fault g uid
      (get_available_stock st₁.db p.code q.toNat)).2 = db₃ := by rw [hmark]
  have hu3 : db₃.users = st₂.db.users := by
    rw [← hmark2]; exact (markAll_tables fault g uid _ st₂.db).1
  split at h
  · have hlkE : ({ st₂ with db := db₃ } : BMState).db.users.lookup (pyUpper g) =
        some newB := by
      show db₃.users.lookup _ = _
      rw [hu3]; exact hlk2
    obtain ⟨ho, b', hlk', hge, himp⟩ :=
      purchaseExcept_spec _ g p.name (p.price * q) q row0 newB o st' hlkE
        hnewBtot hnnB h
    exact Or.inr (Or.inr ⟨p, row0, b', ho, hp, hrow0', hlk', hge, himp⟩)
  obtain ⟨ho, hst⟩ := (Prod.mk.injEq _ _ _ _).mp h
  apply Or.inr; apply Or.inl
  refine ⟨_, p, row0, newB, ho.symm, hp, hrow0', ?_, hnewBtot, ?_, ?_, ?_⟩
  · rw [← hst]
    show db₃.users.lookup _ = _
    rw [hu3]; exact hlk2
  · have hbound : (get_available_stock st.db p.code q.toNat).length ≤ q.toNat := by
      simp [get_available_stock, List.length_take]
    rw [← hdb1]
    rw [← hdb1] at hbound
    omega
  · intro r hr r' hr' hid
    rw [← hst] at hr'
    have hr'' : r' ∈ db₃.stock := hr'
    rw [← hmark2] at hr''
    refine markAll_sold fault g uid _ st₂.db hids2 hmark1 r ?_ r' hr'' hid
    rw [hdb1]
    exact hr
  · rw [← hst]
    show ∃ tx ∈ db₃.transactions ++ [_], _
    exact ⟨_, List.mem_append_right _ (List.mem_singleton_self _), rfl, rfl, rfl⟩

/-- A typed-failure return from `process_purchase` leaves the store
exactly as it was (only the read-through cache may have been populated). -/
theorem process_purchase_fail_frame (st : BMState) (fault : Fault)
    (uid pc : String) (q : Int) (g : String) (f : PurchaseFail) (st' : BMState)
    (h : process_purchase st fault uid pc q g = (.fail f, st')) :
    st'.db = st.db := by
  simp only [process_purchase] at h
  split at h
  · exact (((Prod.mk.injEq _ _ _ _).mp h).2).symm ▸ rfl
  rename_i p hp
  split at h
  · exact (((Prod.mk.injEq _ _ _ _).mp h).2).symm ▸ rfl
  split at h
  · rename_i st₁ hgb
    rw [← ((Prod.mk.injEq _ _ _ _).mp h).2,
      show st₁ = (get_balance st g).2 by rw [hgb]]
    exact get_balance_db_frame st g
  rename_i balance st₁ hgb
  have hdb1 : st₁.db = st.db := by
    rw [show st₁ = (get_balance st g).2 by rw [hgb]]
    exact get_balance_db_frame st g
  split at h
  · rw [← ((Prod.mk.injEq _ _ _ _).mp h).2]; exact hdb1
  split at h
  · rw [← ((Prod.mk.injEq _ _ _ _).mp h).2]; exact hdb1
  split at h
  · rename_i e st₂ hupd
    rw [← ((Prod.mk.injEq _ _ _ _).mp h).2,
      update_balance_error_frame st₁ g _ 0 0 _ _ e st₂ hupd]
    exact hdb1
  rename_i newB st₂ hupd
  split at h
  · rename_i db₃ hmark
    simp only [purchaseExcept] at h
    split at h <;> exact absurd ((Prod.mk.injEq _ _ _ _).mp h).1 (by simp)
  rename_i db₃ hmark
  split at h
  · simp only [purchaseExcept] at h
    split at h <;> exact absurd ((Prod.mk.injEq _ _ _ _).mp h).1 (by simp)
  · exact absurd ((Prod.mk.injEq _ _ _ _).mp h).1 (by simp)

/-- With the step-8 insert raising, a purchase can never return success. -/
theorem process_purchase_insert_raises_not_ok (st : BMState) (fault : Fault)
    (uid pc : String) (q : Int) (g : String) (items : List String)
    (st' : BMState) (hins : fault.insertRaises = true)
    (h : process_purchase st fault uid pc q g = (.ok items, st')) : False := by
  simp only [process_purchase] at h
  split at h
  · exact absurd ((Prod.mk.injEq _ _ _ _).mp h).1 (by simp)
  split at h
  · exact absurd ((Prod.mk.injEq _ _ _ _).mp h).1 (by simp)
  split at h
  · exact absurd ((Prod.mk.injEq _ _ _ _).mp h).1 (by simp)
  split at h
  · exact absurd ((Prod.mk.injEq _ _ _ _).mp h).1 (by simp)
  split at h
  · exact absurd ((Prod.mk.injEq _ _ _ _).mp h).1 (by simp)
  split at h
  · exact absurd ((Prod.mk.injEq _ _ _ _).mp h).1 (by simp)
  split at h
  · simp only [purchaseExcept] at h
    split at h <;> exact absurd ((Prod.mk.injEq _ _ _ _).mp h).1 (by simp)
  · simp only [purchaseExcept] at h
    split at h <;> exact absurd ((Prod.mk.injEq _ _ _ _).mp h).1 (by simp)

/-! ## Claim C2: no terminal state leaves the debit unaccounted for -/

/-- C2: a `process_purchase` call never terminates with the buyer's balance
debited unless either (a) it succeeded — the requested quantity of stock
rows is marked sold and a purchase transaction record is written, with the
total debited exactly `price * quantity` — or (b) the raise handler's
compensating refund restored the pre-debit total (always the case for a
positive total price; a non-positive total price is never debited).  Typed
failures leave the store untouched. -/
theorem c2_purchase_never_loses_debit (st : BMState) (fault : Fault)
    (uid pc : String) (q : Int) (g : String) (o : PurchaseOutcome)
    (st' : BMState) (hids : (st.db.stock.map (·.id)).Nodup)
    (h : process_purchase st fault uid pc q g = (o, st')) :
    (∃ f, o = .fail f ∧ st'.db = st.db) ∨
    (∃ items p row0 newB, o = .ok items ∧
        get_product st.db pc = some p ∧
        st.db.users.lookup (pyUpper g) = some row0 ∧
        st'.db.users.lookup (pyUpper g) = some newB ∧
        newB.total_wls = row0.total_wls - p.price * q ∧
        (get_available_stock st.db p.code q.toNat).length = q.toNat ∧
        (∀ r ∈ get_available_stock st.db p.code q.toNat,
            ∀ r' ∈ st'.db.stock, r'.id = r.id → r'.status = STATUS_SOLD) ∧
        (∃ tx ∈ st'.db.transactions, tx.ttype = TRANSACTION_PURCHASE ∧
            tx.items_count = q ∧ tx.total_price = p.price * q)) ∨
    (∃ p row0 b', o = .raised ∧
        get_product st.db pc = some p ∧
        st.db.users.lookup (pyUpper g) = some row0 ∧
        st'.db.users.lookup (pyUpper g) = some b' ∧
        row0.total_wls ≤ b'.total_wls ∧
        (0 < p.price * q →
            b'.total_wls = row0.total_wls ∧
            ∃ tx ∈ st'.db.transactions, tx.ttype = TRANSACTION_REFUND)) :=
  process_purchase_spec st fault uid pc q g o st' hids h

/-- Witness for C2: the fault-free purchase of 2 `SWORD` from the shop
state terminates `ok`, and the theorem's case analysis applies to it. -/
theorem c2_purchase_never_loses_debit_witness :
    (shopState.db.stock.map (·.id)).Nodup ∧
    ((∃ f, PurchaseOutcome.ok ["c1", "c2"] = PurchaseOutcome.fail f ∧
        (process_purchase shopState noFault "1" "SWORD" 2 "A").2.db =
          shopState.db) ∨
     (∃ items p row0 newB,
        PurchaseOutcome.ok ["c1", "c2"] = PurchaseOutcome.ok items ∧
        get_product shopState.db "SWORD" = some p ∧
        shopState.db.users.lookup (pyUpper "A") = some row0 ∧
        (process_purchase shopState noFault "1" "SWORD" 2 "A").2.db.users.lookup
          (pyUpper "A") = some newB ∧
        newB.total_wls = row0.total_wls - p.price * 2 ∧
        (get_available_stock shopState.db p.code (2 : Int).toNat).length =
          (2 : Int).toNat ∧
        (∀ r ∈ get_available_stock shopState.db p.code (2 : Int).toNat,
            ∀ r' ∈ (process_purchase shopState noFault "1" "SWORD" 2 "A").2.db.stock,
              r'.id = r.id → r'.status = STATUS_SOLD) ∧
        (∃ tx ∈ (process_purchase shopState noFault "1" "SWORD" 2 "A").2.db.transactions,
            tx.ttype = TRANSACTION_PURCHASE ∧ tx.items_count = 2 ∧
            tx.total_price = p.price * 2)) ∨
     (∃ p row0 b',
        PurchaseOutcome.ok ["c1", "c2"] = PurchaseOutcome.raised ∧
        get_product shopState.db "SWORD" = some p ∧
        shopState.db.users.lookup (pyUpper "A") = some row0 ∧
        (process_purchase shopState noFault "1" "SWORD" 2 "A").2.db.users.lookup
          (pyUpper "A") = some b' ∧
        row0.total_wls ≤ b'.total_wls ∧
        (0 < p.price * 2 →
            b'.total_wls = row0.total_wls ∧
            ∃ tx ∈ (process_purchase shopState noFault "1" "SWORD" 2 "A").2.db.transactions,
              tx.ttype = TRANSACTION_REFUND))) :=
  ⟨by decide,
    c2_purchase_never_loses_debit shopState noFault "1" "SWORD" 2 "A"
      (.ok ["c1", "c2"])
      (process_purchase shopState noFault "1" "SWORD" 2 "A").2
      (by decide) (by decide)⟩

/-! ## Claim C4: validation failures have no persistent side effects -/

/-- C4: whenever the buy command returns a typed failure — unregistered
caller, out-of-range quantity, unknown product (the wrapper checks of
`BuyModal.on_submit`), or any of `process_purchase`'s own validation
failures (unknown product, insufficient stock count, missing balance,
insufficient balance, stock fetch short, debit rejection) — the store
(balances, stock rows, transaction log) is exactly as before the call. -/
theorem c4_validation_failures_frame (st : BMState) (fault : Fault)
    (uid pci : String) (q : Int) (f : BuyFail) (st' : BMState)
    (h : buy_on_submit st fault uid pci q = (.fail f, st')) :
    st'.db = st.db := by
  simp only [buy_on_submit] at h
  split at h
  · exact (((Prod.mk.injEq _ _ _ _).mp h).2).symm ▸ rfl
  rename_i g hg
  split at h
  · exact (((Prod.mk.injEq _ _ _ _).mp h).2).symm ▸ rfl
  split at h
  · exact (((Prod.mk.injEq _ _ _ _).mp h).2).symm ▸ rfl
  split at h
  · exact absurd ((Prod.mk.injEq _ _ _ _).mp h).1 (by simp)
  · rename_i f' st'' hpp
    obtain ⟨-, hst⟩ := (Prod.mk.injEq _ _ _ _).mp h
    rw [← hst]
    exact process_purchase_fail_frame st fault uid _ q g f' st'' hpp
  · exact absurd ((Prod.mk.injEq _ _ _ _).mp h).1 (by simp)

/-- Witness for C4: an unregistered caller fails with `noGrowID` leaving
the state untouched, and a request for 5 units with only 3 in stock fails
with `InsufficientStock` leaving the store untouched. -/
theorem c4_validation_failures_frame_witness :
    buy_on_submit shopState noFault "2" "SWORD" 2 =
      (.fail .noGrowID, shopState) ∧
    (buy_on_submit shopState noFault "1" "SWORD" 5).1 =
      .fail (.purchase .insufficientStockCount) ∧
    (buy_on_submit shopState noFault "1" "SWORD" 5).2.db = shopState.db :=
  ⟨by decide, by decide,
    c4_validation_failures_frame shopState noFault "1" "SWORD" 5
      (.purchase .insufficientStockCount)
      (buy_on_submit shopState noFault "1" "SWORD" 5).2 (by decide)⟩

/-! ## Claim C6: behaviour when the step-8 record write fails -/

/-- C6 as stated is false on the code: in the shop state, with the step-8
transaction-record insert failing after a successful debit of 200 and both
stock rows marked sold, the handler DOES issue a compensating refund — the
final stored total equals the pre-debit 300 (the debit is not left in
place) and a refund transaction row is written (the log reads
`[PURCHASE, REFUND]`). -/
theorem c6_counterexample :
    (process_purchase shopState faultInsert "1" "SWORD" 2 "A").1 = .raised ∧
    (process_purchase shopState faultInsert "1" "SWORD" 2 "A").2.db.users.lookup
      (pyUpper "A") = some ⟨0, 3, 0⟩ ∧
    (⟨0, 3, 0⟩ : Balance).total_wls = 300 ∧
    shopState.db.users.lookup (pyUpper "A") = some ⟨300, 0, 0⟩ ∧
    (⟨300, 0, 0⟩ : Balance).total_wls = 300 ∧
    (process_purchase shopState faultInsert "1" "SWORD" 2 "A").2.db.transactions.map
      (·.ttype) = [TRANSACTION_PURCHASE, TRANSACTION_REFUND] := by decide

/-- C6 amended: when the step-8 record write raises after the balance was
debited (and, like any post-debit failure with a positive total price), the
purchase IS compensated: the call raises, never returns success, a refund
of the full `total_price` restores the pre-debit total, and a refund
transaction row is appended; the step-8 purchase record itself is rolled
back with the orchestrator's transaction. -/
theorem c6_record_failure_is_refunded (st : BMState) (fault : Fault)
    (uid pc : String) (q : Int) (g : String) (o : PurchaseOutcome)
    (st' : BMState) (p : ProductRow) (row0 : Balance)
    (hids : (st.db.stock.map (·.id)).Nodup)
    (hins : fault.insertRaises = true)
    (h : process_purchase st fault uid pc q g = (o, st'))
    (hp : get_product st.db pc = some p)
    (hrow0 : st.db.users.lookup (pyUpper g) = some row0)
    (hpos : 0 < p.price * q)
    (hnf : ∀ f, o ≠ PurchaseOutcome.fail f) :
    o = .raised ∧
    ∃ b', st'.db.users.lookup (pyUpper g) = some b' ∧
      b'.total_wls = row0.total_wls ∧
      ∃ tx ∈ st'.db.transactions, tx.ttype = TRANSACTION_REFUND := by
  rcases process_purchase_spec st fault uid pc q g o st' hids h with
    ⟨f, ho, -⟩ | ⟨items, p', row0', newB, ho, -, -, -, -, -, -, -⟩ |
    ⟨p', row0', b', ho, hp', hrow0', hlk', -, himp⟩
  · exact absurd ho (hnf f)
  · subst ho
    exact absurd h (fun hh =>
      process_purchase_insert_raises_not_ok st fault uid pc q g items st' hins hh)
  · obtain rfl : p' = p := Option.some.inj (hp'.symm.trans hp)
    obtain rfl : row0' = row0 := Option.some.inj (hrow0'.symm.trans hrow0)
    obtain ⟨htot, tx⟩ := himp hpos
    exact ⟨ho, b', hlk', htot, tx⟩

/-- Witness for the amended C6, at the counterexample's input. -/
theorem c6_record_failure_is_refunded_witness :
    faultInsert.insertRaises = true ∧
    get_product shopState.db "SWORD" = some ⟨"SWORD", "Sword", 100, none⟩ ∧
    shopState.db.users.lookup (pyUpper "A") = some ⟨300, 0, 0⟩ ∧
    (0 : Int) < (100 : Int) * 2 ∧
    (PurchaseOutcome.raised = .raised ∧
      ∃ b', (process_purchase shopState faultInsert "1" "SWORD" 2 "A").2.db.users.lookup
          (pyUpper "A") = some b' ∧
        b'.total_wls = (⟨300, 0, 0⟩ : Balance).total_wls ∧
        ∃ tx ∈ (process_purchase shopState faultInsert "1" "SWORD" 2 "A").2.db.transactions,
          tx.ttype = TRANSACTION_REFUND) :=
  ⟨rfl, by decide, by decide, by decide,
    c6_record_failure_is_refunded shopState faultInsert "1" "SWORD" 2 "A"
      .raised (process_purchase shopState faultInsert "1" "SWORD" 2 "A").2
      ⟨"SWORD", "Sword", 100, none⟩ ⟨300, 0, 0⟩ (by decide) rfl (by decide)
      (by decide) (by decide) (by decide)
      (fun f hf => PurchaseOutcome.noConfusion hf)⟩

end AutoDC
